import Mathlib

/-
Verification of the copy-on-write fork protocol (src/lib/fork.c) and the
round-robin scheduler (sched_yield / sched_halt) of the 6.828 JOS lab kernel.

The C code is embedded shallowly: page tables are functions from page number
to raw 32-bit page-table entries (as seen through the uvpt window), machine
arithmetic is Nat with the exact masks the C source applies, and each routine
is a pure function that additionally returns the list of system calls it
issued, in order.  Constants are the fixed values of the upstream JOS lab
headers (inc/memlayout.h, inc/mmu.h, inc/env.h, inc/trap.h), which the
repository builds against.
-/

namespace Jos

/-! ### Constants from the JOS headers and from src/lib/fork.c -/

def PGSIZE : Nat := 4096
def PGSHIFT : Nat := 12
def PTSIZE : Nat := 0x400000
def NENV : Nat := 1024

def PTE_P : Nat := 0x1
def PTE_W : Nat := 0x2
def PTE_U : Nat := 0x4
def PTE_AVAIL : Nat := 0xE00
/-- PTE_COW marks copy-on-write page table entries (src/lib/fork.c line 9). -/
def PTE_COW : Nat := 0x800
/-- Permission bits a user environment may pass to the page system calls. -/
def PTE_SYSCALL : Nat := PTE_AVAIL ||| PTE_P ||| PTE_W ||| PTE_U

/-- Page-fault error code bit: the faulting access was a write. -/
def FEC_WR : Nat := 0x2

def ULIM : Nat := 0xef800000
def UVPT : Nat := ULIM - PTSIZE
def UPAGES : Nat := UVPT - PTSIZE
def UENVS : Nat := UPAGES - PTSIZE
def UTOP : Nat := UENVS
/-- Top of the user exception (fault-handling) stack. -/
def UXSTACKTOP : Nat := UTOP
/-- Top of the normal user stack: one stack page and one gap page below UTOP. -/
def USTACKTOP : Nat := UTOP - 2 * PGSIZE
def UTEMP : Nat := PTSIZE
/-- Temporary staging address used by the user page-fault handler. -/
def PFTEMP : Nat := UTEMP + PTSIZE - PGSIZE

/-- Page number of a linear address (inc/mmu.h PGNUM). -/
def PGNUM (la : Nat) : Nat := la >>> PGSHIFT
/-- Page-directory index of a linear address (inc/mmu.h PDX). -/
def PDX (la : Nat) : Nat := (la >>> 22) &&& 0x3FF
/-- ROUNDDOWN(a, n) from inc/types.h: clear a to the previous multiple of n. -/
def ROUNDDOWN (a n : Nat) : Nat := a - a % n
/-- Table index part of an environment id (inc/env.h ENVX). -/
def ENVX (envid : Nat) : Nat := envid &&& (NENV - 1)

/-- Physical frame bits of a page-table entry: pte with the low 12 permission
bits cleared (inc/mmu.h PTE_ADDR). -/
def PTE_ADDR (pte : Nat) : Nat := (pte >>> 12) <<< 12
/-- The frame number a page-table entry refers to. -/
def frameOf (pte : Nat) : Nat := pte >>> 12
/-- The entry the kernel mapper installs when mapping the frame of `srcpte`
with permission `perm`: page_insert stores the physical address together with
`perm | PTE_P`. -/
def installPTE (srcpte perm : Nat) : Nat := PTE_ADDR srcpte ||| perm ||| PTE_P

/-! ### Embedding of src/lib/fork.c: duppage -/

/-- One sys_page_map call issued by duppage: `toChild` selects the target
address space (the child envid versus envid 0, the caller itself), `pn` the
page mapped at both source and destination, `perm` the permission argument. -/
structure MapCall where
  toChild : Bool
  pn : Nat
  perm : Nat
deriving DecidableEq, Repr

/-- The two address spaces duppage operates on, each a function from page
number to raw page-table entry, exactly the view the uvpt window gives. -/
structure DupState where
  parentPT : Nat → Nat
  childPT : Nat → Nat

/-- duppage (src/lib/fork.c lines 64-89).  Reads the entry for `pn` through
uvpt, masks it with PTE_SYSCALL; if the mapping is writable or copy-on-write
it maps the page into the child with PTE_COW set and PTE_W cleared, then
remaps it into the parent the same way; otherwise it maps it into the child
with the masked permissions unchanged.  `failChild` / `failParent` say
whether the corresponding sys_page_map call fails with a negative status (in
which case duppage returns it at once).  Result: the updated address spaces,
the list of attempted sys_page_map calls in order, and the return value. -/
def duppage (s : DupState) (pn : Nat) (failChild failParent : Bool) :
    DupState × List MapCall × Int :=
  let perm := s.parentPT pn &&& PTE_SYSCALL
  if perm &&& PTE_W ≠ 0 ∨ perm &&& PTE_COW ≠ 0 then
    -- perm |= PTE_COW; perm &= ~PTE_W  (the complement on a 32-bit uint)
    let perm2 := (perm ||| PTE_COW) &&& 0xFFFFFFFD
    if failChild then (s, [⟨true, pn, perm2⟩], -1)
    else
      let s1 : DupState :=
        { s with childPT := fun q => if q = pn then installPTE (s.parentPT pn) perm2 else s.childPT q }
      if failParent then (s1, [⟨true, pn, perm2⟩, ⟨false, pn, perm2⟩], -1)
      else
        let s2 : DupState :=
          { s1 with parentPT := fun q => if q = pn then installPTE (s1.parentPT pn) perm2 else s1.parentPT q }
        (s2, [⟨true, pn, perm2⟩, ⟨false, pn, perm2⟩], 0)
  else
    if failChild then (s, [⟨true, pn, perm⟩], -1)
    else
      ({ s with childPT := fun q => if q = pn then installPTE (s.parentPT pn) perm else s.childPT q },
       [⟨true, pn, perm⟩], 0)

/-! ### Embedding of src/lib/fork.c: pgfault -/

/-- System calls (plus the memcpy) issued by the user page-fault handler, all
with the caller (envid 0) as the target environment.  Arguments are page
numbers and the permission word passed to the kernel. -/
inductive SysEv where
  | alloc (pn perm : Nat)
  | copy (dstpn srcpn : Nat)
  | map (srcpn dstpn perm : Nat)
  | unmap (pn : Nat)
deriving DecidableEq, Repr

/-- Memory of one environment: the page table (page number to raw entry, the
uvpt view), the contents of every physical frame (frame number to byte
offset to byte), and the next free frame number of the kernel allocator
(every frame the allocator may hand out is at least `nextFrame`; free frames
are mapped nowhere). -/
structure MemState where
  pt : Nat → Nat
  frames : Nat → Nat → Nat
  nextFrame : Nat

/-- Result of the page-fault handler: the memory afterwards, the calls it
issued in order, and whether it panicked.  A panic in the C code never
returns; the state recorded with `panicked = true` is the memory at the
moment of the panic. -/
structure PgOut where
  st : MemState
  trace : List SysEv
  panicked : Bool

/-- pgfault (src/lib/fork.c lines 15-51).  If the fault is not a write
(FEC_WR) to a page whose entry is copy-on-write, it panics having issued no
system call.  Otherwise it allocates a fresh zero frame at PFTEMP, copies the
faulted page into it, remaps the page-aligned faulting address to that frame
writable, and unmaps PFTEMP.  `allocFail`, `mapFail`, `unmapFail` make the
corresponding system call return a negative status, on which the C code also
panics (having issued the calls up to that point). -/
def pgfault (s : MemState) (va err : Nat)
    (allocFail mapFail unmapFail : Bool) : PgOut :=
  if err &&& FEC_WR = 0 ∨ s.pt (PGNUM va) &&& PTE_COW = 0 then
    ⟨s, [], true⟩
  else
    let permWUP := PTE_W ||| PTE_U ||| PTE_P
    if allocFail then ⟨s, [.alloc (PGNUM PFTEMP) permWUP], true⟩
    else
      let f := s.nextFrame
      let s1 : MemState :=
        { pt := fun q => if q = PGNUM PFTEMP then (f <<< 12) ||| permWUP else s.pt q,
          frames := fun g => if g = f then (fun _ => 0) else s.frames g,
          nextFrame := f + 1 }
      let addr := ROUNDDOWN va PGSIZE
      -- memcpy(PFTEMP, addr, PGSIZE): copy through the two mappings
      let srcF := frameOf (s1.pt (PGNUM addr))
      let dstF := frameOf (s1.pt (PGNUM PFTEMP))
      let s2 : MemState :=
        { s1 with frames := fun g => if g = dstF then s1.frames srcF else s1.frames g }
      let tr := [SysEv.alloc (PGNUM PFTEMP) permWUP, SysEv.copy (PGNUM PFTEMP) (PGNUM addr)]
      if mapFail then ⟨s2, tr ++ [.map (PGNUM PFTEMP) (PGNUM addr) permWUP], true⟩
      else
        let s3 : MemState :=
          { s2 with pt := fun q =>
              if q = PGNUM addr then installPTE (s2.pt (PGNUM PFTEMP)) permWUP else s2.pt q }
        let tr := tr ++ [SysEv.map (PGNUM PFTEMP) (PGNUM addr) permWUP]
        if unmapFail then ⟨s3, tr ++ [.unmap (PGNUM PFTEMP)], true⟩
        else
          let s4 : MemState :=
            { s3 with pt := fun q => if q = PGNUM PFTEMP then 0 else s3.pt q }
          ⟨s4, tr ++ [SysEv.unmap (PGNUM PFTEMP)], false⟩

/-! ### Embedding of src/lib/fork.c: fork -/

/-- The pages fork duplicates: the loop walks addr = 0, PGSIZE, ... below
USTACKTOP and calls duppage for every page whose directory entry and table
entry are both present (src/lib/fork.c lines 126-130). -/
def forkDupPns (pd pt : Nat → Nat) : List Nat :=
  (List.range (USTACKTOP / PGSIZE)).filter fun pn =>
    decide (pd (PDX (pn * PGSIZE)) &&& PTE_P ≠ 0) &&
    decide (pt (PGNUM (pn * PGSIZE)) &&& PTE_P ≠ 0)

/-- The observable steps of fork, in program order. -/
inductive ForkEv where
  | setHandler
  | exofork
  | dup (pn : Nat) (r : Int)
  | allocUX (envid va perm : Nat)
  | setUpcall (envid : Nat)
  | setStatus (envid : Nat) (runnable : Bool)
  | fixThisenv (idx : Nat)
deriving DecidableEq, Repr

/-- What a fork call comes to: a returned value, or a panic. -/
inductive ForkRet where
  | ret (v : Int)
  | panicked
deriving DecidableEq, Repr

/-- Result of fork: outcome, the steps taken before returning or panicking,
and the index the child stored into thisenv (none on the parent side). -/
structure ForkOut where
  outcome : ForkRet
  trace : List ForkEv
  thisenvIdx : Option Nat

/-- fork (src/lib/fork.c lines 107-144).  Parameters stand for the values the
kernel returns to the user library: `exoforkRes` is what sys_exofork gives
back (negative: error, zero: we are the child, positive: the child envid),
`myid` is sys_getenvid in the child, `dupRes pn` is the status duppage
returns for page `pn` (the code discards it), and `allocRes`, `upcallRes`,
`statusRes` are the statuses of the three syscalls that set up the child; a
negative one makes fork panic at that point. -/
def fork (pd pt : Nat → Nat) (exoforkRes : Int) (myid : Nat)
    (dupRes : Nat → Int) (allocRes upcallRes statusRes : Int) : ForkOut :=
  if exoforkRes < 0 then ⟨.ret exoforkRes, [.setHandler, .exofork], none⟩
  else if exoforkRes = 0 then
    -- child: thisenv = &envs[ENVX(sys_getenvid())]; return 0
    ⟨.ret 0, [.setHandler, .exofork, .fixThisenv (ENVX myid)], some (ENVX myid)⟩
  else
    let envid := exoforkRes.toNat
    let dupEvs := (forkDupPns pd pt).map fun pn => ForkEv.dup pn (dupRes pn)
    let tr := ForkEv.setHandler :: ForkEv.exofork :: dupEvs
    let uxAlloc := ForkEv.allocUX envid (UXSTACKTOP - PGSIZE) (PTE_W ||| PTE_U ||| PTE_P)
    if allocRes < 0 then ⟨.panicked, tr ++ [uxAlloc], none⟩
    else if upcallRes < 0 then ⟨.panicked, tr ++ [uxAlloc, .setUpcall envid], none⟩
    else if statusRes < 0 then
      ⟨.panicked, tr ++ [uxAlloc, .setUpcall envid, .setStatus envid true], none⟩
    else
      ⟨.ret (Int.ofNat envid), tr ++ [uxAlloc, .setUpcall envid, .setStatus envid true], none⟩

/-! ### Embedding of sched_yield (kern/sched.c, src/unnamed/part_006) -/

/-- Environment status values from inc/env.h. -/
inductive EnvStatus where
  | ENV_FREE
  | ENV_DYING
  | ENV_RUNNABLE
  | ENV_RUNNING
  | ENV_NOT_RUNNABLE
deriving DecidableEq, Repr

/-- Reading envs[i].  For i < NENV this is the table entry; for i ≥ NENV the
C expression reads past the end of the array, and `oob` is whatever status
value that junk memory happens to hold. -/
def envRead (statuses : Nat → EnvStatus) (oob : EnvStatus) (i : Nat) : EnvStatus :=
  if i < NENV then statuses i else oob

/-- How the do-while scan of sched_yield ends: env_run on a table index, the
exit test (cur + 1) % NENV = begin firing, or the loop running forever. -/
inductive ScanRes where
  | found (i : Nat)
  | exited
  | looping
deriving DecidableEq, Repr

/-- The do-while loop of sched_yield: probe envs[cur]; if RUNNABLE, env_run
it; otherwise step cur to (cur + 1) % NENV and stop once cur is back at
begin.  The fuel only bounds the recursion: the probed index is begin once
and afterwards (begin + k) % NENV, a sequence with period NENV, so NENV + 1
probes decide the loop — if it neither dispatched nor exited within them, it
repeats the same probes forever, which `looping` records. -/
def scanGo (statuses : Nat → EnvStatus) (oob : EnvStatus) (begin : Nat) :
    Nat → Nat → ScanRes
  | _cur, 0 => .looping
  | cur, fuel + 1 =>
    if envRead statuses oob cur = .ENV_RUNNABLE then .found cur
    else
      let next := (cur + 1) % NENV
      if next = begin then .exited else scanGo statuses oob begin next fuel

/-- What sched_yield comes to on this processor. -/
inductive SchedResult where
  | dispatch (i : Nat)
  | runCurenv
  | halt
  | diverge
deriving DecidableEq, Repr

/-- The scan start index of sched_yield: 0 when no environment was running on
this processor, otherwise ENVX(curenv->env_id) + 1 — with no modulo
reduction, exactly as the source computes `begin`. -/
def beginOf (curIdx : Option Nat) : Nat :=
  match curIdx with
  | none => 0
  | some i => i + 1

/-- sched_yield (src/unnamed/part_006 lines 13-54).  `statuses` is the envs
table, `oob` the junk read if the scan indexes past it, `curIdx` the table
index of the environment last run on this processor (none if none).  Scan
the table from `beginOf curIdx`, env_run the first ENV_RUNNABLE entry found;
if the loop exits instead, env_run curenv when its entry is still
ENV_RUNNING, and otherwise call sched_halt, which releases env_lock and
halts the processor.  `diverge` records the do-while never exiting. -/
def sched_yield (statuses : Nat → EnvStatus) (oob : EnvStatus)
    (curIdx : Option Nat) : SchedResult :=
  match scanGo statuses oob (beginOf curIdx) (beginOf curIdx) (NENV + 1) with
  | .found i => .dispatch i
  | .looping => .diverge
  | .exited =>
    match curIdx with
    | some i => if statuses i = .ENV_RUNNING then .runCurenv else .halt
    | none => .halt

/-- The table indexes the do-while loop of sched_yield actually probes, in
order (same fuel argument as `scanGo`). -/
def scanProbes (statuses : Nat → EnvStatus) (oob : EnvStatus) (begin : Nat) :
    Nat → Nat → List Nat
  | _cur, 0 => []
  | cur, fuel + 1 =>
    if envRead statuses oob cur = .ENV_RUNNABLE then [cur]
    else
      let next := (cur + 1) % NENV
      if next = begin then [cur] else cur :: scanProbes statuses oob begin next fuel

/-- All indexes sched_yield probes for a given table and last-run index. -/
def sched_yield_probes (statuses : Nat → EnvStatus) (oob : EnvStatus)
    (curIdx : Option Nat) : List Nat :=
  scanProbes statuses oob (beginOf curIdx) (beginOf curIdx) (NENV + 1)

/-- The scheduling policy in the words of the specification: scan the
environment table exactly once, in circular order starting just after the
index last run on this processor, dispatch the first RUNNABLE entry found;
if none is found and the previously current environment is still RUNNING,
redispatch it; otherwise halt the processor. -/
def sched_spec (statuses : Nat → EnvStatus) (curIdx : Option Nat) : SchedResult :=
  let start := match curIdx with
    | none => 0
    | some i => (i + 1) % NENV
  match ((List.range NENV).map fun k => (start + k) % NENV).find?
      (fun i => decide (statuses i = .ENV_RUNNABLE)) with
  | some i => .dispatch i
  | none =>
    match curIdx with
    | some i => if statuses i = .ENV_RUNNING then .runCurenv else .halt
    | none => .halt

/-! ### The copy-on-write invariant and concrete states for evaluation -/

/-- The invariant of the page-table-entry data model: a COW-marked entry is
never simultaneously writable. -/
@[reducible] def cowInv (pte : Nat) : Prop := pte &&& PTE_COW ≠ 0 → pte &&& PTE_W = 0

/-- A parent address space whose every page is mapped writable (frame 5,
perm PTE_W | PTE_U | PTE_P), facing an empty child. -/
def dupStW : DupState :=
  ⟨fun _ => (5 <<< 12) ||| (PTE_W ||| PTE_U ||| PTE_P), fun _ => 0⟩

/-- A parent address space whose every page is mapped read-only and not
COW-marked (frame 5, perm PTE_U | PTE_P), facing an empty child. -/
def dupStRO : DupState :=
  ⟨fun _ => (5 <<< 12) ||| (PTE_U ||| PTE_P), fun _ => 0⟩

/-- A memory with one COW page: page 7 maps frame 3 with
PTE_COW | PTE_U | PTE_P; every frame holds the byte 9 everywhere; the next
free frame is 10. -/
def memCow : MemState :=
  ⟨fun q => if q = 7 then (3 <<< 12) ||| (PTE_COW ||| PTE_U ||| PTE_P) else 0,
   fun _ _ => 9, 10⟩

/-- A memory whose COW page is the staging page itself: the page holding
PFTEMP maps frame 3 with PTE_COW | PTE_U | PTE_P. -/
def memCowAtPftemp : MemState :=
  ⟨fun q => if q = PGNUM PFTEMP then (3 <<< 12) ||| (PTE_COW ||| PTE_U ||| PTE_P) else 0,
   fun _ _ => 9, 10⟩

/-! ### Bit-level helper lemmas -/

lemma lor_land_distrib (a b c : Nat) :
    (a ||| b) &&& c = (a &&& c) ||| (b &&& c) := by
  apply Nat.eq_of_testBit_eq
  intro i
  simp [Nat.testBit_land, Nat.testBit_lor, Bool.and_or_distrib_right]

lemma land_zero (a : Nat) : a &&& 0 = 0 := by
  apply Nat.eq_of_testBit_eq
  intro i
  simp [Nat.testBit_land]

lemma lor_eq_zero_iff {a b : Nat} : a ||| b = 0 ↔ a = 0 ∧ b = 0 := by
  constructor
  · intro h
    refine ⟨Nat.eq_of_testBit_eq fun i => ?_, Nat.eq_of_testBit_eq fun i => ?_⟩ <;>
    · have hh := congrArg (Nat.testBit · i) h
      simp only [Nat.testBit_lor, Nat.zero_testBit, Bool.or_eq_false_iff] at hh
      simp [hh]
  · rintro ⟨rfl, rfl⟩
    rfl

/-- A value shifted left by 12 has no bits in common with a mask below 2^12. -/
lemma shiftLeft12_land_small (x m : Nat) (hm : m < 4096) : (x <<< 12) &&& m = 0 := by
  apply Nat.eq_of_testBit_eq
  intro i
  simp only [Nat.testBit_land, Nat.testBit_shiftLeft, Nat.zero_testBit]
  rcases Nat.lt_or_ge i 12 with hi | hi
  · simp [Nat.not_le.mpr hi]
  · have h12 : (4096 : Nat) ≤ 2 ^ i := by
      calc (4096 : Nat) = 2 ^ 12 := by norm_num
      _ ≤ 2 ^ i := Nat.pow_le_pow_right (by norm_num) hi
    have : m < 2 ^ i := lt_of_lt_of_le hm h12
    simp [Nat.testBit_lt_two_pow this]

lemma PTE_ADDR_land_small (pte m : Nat) (hm : m < 4096) : PTE_ADDR pte &&& m = 0 :=
  shiftLeft12_land_small _ m hm

lemma shiftLeft12_shiftRight (x : Nat) : (x <<< 12) >>> 12 = x := by
  rw [Nat.shiftLeft_eq, Nat.shiftRight_eq_div_pow]
  exact Nat.mul_div_cancel x (by norm_num)

lemma shiftRight12_small (m : Nat) (hm : m < 4096) : m >>> 12 = 0 := by
  rw [Nat.shiftRight_eq_div_pow]
  exact Nat.div_eq_of_lt (by norm_num at hm ⊢; omega)

lemma shiftRight_lor (a b k : Nat) : (a ||| b) >>> k = (a >>> k) ||| (b >>> k) := by
  apply Nat.eq_of_testBit_eq
  intro i
  simp [Nat.testBit_shiftRight, Nat.testBit_lor]

/-- The frame of an installed entry is the frame of the source entry. -/
lemma frameOf_installPTE (srcpte perm : Nat) (hperm : perm < 4096) :
    frameOf (installPTE srcpte perm) = frameOf srcpte := by
  unfold frameOf installPTE PTE_ADDR
  rw [shiftRight_lor, shiftRight_lor, shiftLeft12_shiftRight,
    shiftRight12_small perm hperm, shiftRight12_small PTE_P (by norm_num [PTE_P])]
  simp

/-- Permission-bit test on an installed entry only sees the installed
permission bits (for a mask below 2^12). -/
lemma installPTE_land_small (srcpte perm m : Nat) (hm : m < 4096) :
    installPTE srcpte perm &&& m = (perm &&& m) ||| (PTE_P &&& m) := by
  unfold installPTE
  rw [lor_land_distrib, lor_land_distrib, PTE_ADDR_land_small _ m hm]
  simp

/-- The permission duppage computes in its writable-or-COW branch never has
the writable bit. -/
lemma perm2_land_W (p : Nat) : ((p ||| PTE_COW) &&& 0xFFFFFFFD) &&& PTE_W = 0 := by
  have h : (0xFFFFFFFD : Nat) &&& PTE_W = 0 := by decide
  rw [Nat.land_assoc, h, land_zero]

/-- The permission duppage computes in its writable-or-COW branch always has
the COW bit. -/
lemma perm2_land_COW (p : Nat) : ((p ||| PTE_COW) &&& 0xFFFFFFFD) &&& PTE_COW ≠ 0 := by
  have h : (0xFFFFFFFD : Nat) &&& PTE_COW = PTE_COW := by decide
  rw [Nat.land_assoc, h, lor_land_distrib]
  intro hz
  rcases lor_eq_zero_iff.mp hz with ⟨-, h2⟩
  revert h2
  decide

/-- An entry installed with a permission lacking PTE_W lacks PTE_W. -/
lemma installPTE_land_W (srcpte perm : Nat) (h : perm &&& PTE_W = 0) :
    installPTE srcpte perm &&& PTE_W = 0 := by
  rw [installPTE_land_small srcpte perm PTE_W (by norm_num [PTE_W]), h]
  decide

/-- An entry installed with a permission lacking PTE_W satisfies the COW
invariant outright. -/
lemma cowInv_installPTE (srcpte perm : Nat) (h : perm &&& PTE_W = 0) :
    cowInv (installPTE srcpte perm) :=
  fun _ => installPTE_land_W srcpte perm h

/-- Rounding an address down to a page boundary keeps its page number. -/
lemma PGNUM_ROUNDDOWN (va : Nat) : PGNUM (ROUNDDOWN va PGSIZE) = PGNUM va := by
  unfold PGNUM ROUNDDOWN PGSIZE PGSHIFT
  rw [Nat.shiftRight_eq_div_pow, Nat.shiftRight_eq_div_pow]
  norm_num
  omega

/-- The frame of a freshly allocated entry is the allocated frame. -/
lemma frameOf_shl_lor (f p : Nat) (hp : p < 4096) :
    frameOf ((f <<< 12) ||| p) = f := by
  unfold frameOf
  rw [shiftRight_lor, shiftLeft12_shiftRight, shiftRight12_small p hp]
  simp

/-- Permission-bit extraction through a shifted-frame entry only sees the
low permission bits (for a mask below 2^12). -/
lemma land_shl_lor (f p m : Nat) (hm : m < 4096) :
    ((f <<< 12) ||| p) &&& m = p &&& m := by
  rw [lor_land_distrib, shiftLeft12_land_small f m hm]
  simp

lemma cowInv_zero : cowInv 0 := fun h => absurd (by decide) h

/-- A freshly allocated writable entry is not COW-marked, so it satisfies the
COW invariant. -/
lemma cowInv_fresh (f : Nat) :
    cowInv ((f <<< 12) ||| (PTE_W ||| PTE_U ||| PTE_P)) := by
  intro h
  exact absurd (by rw [land_shl_lor f _ PTE_COW (by norm_num [PTE_COW])]; decide) h

/-- An entry installed with a permission lacking PTE_COW satisfies the COW
invariant. -/
lemma cowInv_install_noCOW (x perm : Nat) (h : perm &&& PTE_COW = 0) :
    cowInv (installPTE x perm) := by
  intro hc
  refine absurd ?_ hc
  rw [installPTE_land_small x perm PTE_COW (by norm_num [PTE_COW]), h]
  decide

/-! ### Claim C1 -/

set_option maxHeartbeats 1000000 in
/-- Claim C1: no page-table entry is ever simultaneously COW-marked and
writable.  (1) Every sys_page_map call duppage issues for a page whose
mapping is writable or COW-marked carries PTE_COW with PTE_W cleared;
(2) duppage preserves the invariant `cowInv` on both address spaces;
(3) the replacement (and staging) mappings pgfault installs carry PTE_W
without PTE_COW; (4) pgfault preserves `cowInv` on the page table.  So the
invariant holds after every operation of the fork protocol. -/
theorem cow_never_writable :
    (∀ s pn fc fp,
        (s.parentPT pn &&& PTE_SYSCALL &&& PTE_W ≠ 0 ∨
         s.parentPT pn &&& PTE_SYSCALL &&& PTE_COW ≠ 0) →
        ∀ c ∈ (duppage s pn fc fp).2.1, c.perm &&& PTE_COW ≠ 0 ∧ c.perm &&& PTE_W = 0)
    ∧ (∀ s pn fc fp,
        (∀ r, cowInv (s.parentPT r)) → (∀ r, cowInv (s.childPT r)) →
        ∀ q, cowInv ((duppage s pn fc fp).1.parentPT q) ∧
          cowInv ((duppage s pn fc fp).1.childPT q))
    ∧ (∀ s va err fa fm fu srcpn dstpn perm,
        SysEv.map srcpn dstpn perm ∈ (pgfault s va err fa fm fu).trace →
        perm &&& PTE_W ≠ 0 ∧ perm &&& PTE_COW = 0)
    ∧ (∀ s va err fa fm fu,
        (∀ r, cowInv (s.pt r)) →
        ∀ q, cowInv ((pgfault s va err fa fm fu).st.pt q)) := by
  refine ⟨?_, ?_, ?_, ?_⟩
  · intro s pn fc fp h c hc
    simp only [duppage, if_pos h] at hc
    cases fc <;> cases fp <;>
      simp only [Bool.false_eq_true, if_false, if_true, List.mem_cons,
        List.not_mem_nil, or_false] at hc <;>
      (rcases hc with rfl | rfl; all_goals exact ⟨perm2_land_COW _, perm2_land_W _⟩)
  · intro s pn fc fp hp hc q
    by_cases h : s.parentPT pn &&& PTE_SYSCALL &&& PTE_W ≠ 0 ∨
        s.parentPT pn &&& PTE_SYSCALL &&& PTE_COW ≠ 0
    · cases fc <;> cases fp <;>
        simp only [duppage, if_pos h, Bool.false_eq_true, if_false, if_true] <;>
        refine ⟨?_, ?_⟩ <;>
        first
          | exact hp q
          | exact hc q
          | ((repeat' split) <;>
             first
               | exact hp q
               | exact hc q
               | exact cowInv_installPTE _ _ (perm2_land_W _))
    · push_neg at h
      cases fc <;>
        simp only [duppage, if_neg (by push_neg; exact h :
            ¬ (s.parentPT pn &&& PTE_SYSCALL &&& PTE_W ≠ 0 ∨
               s.parentPT pn &&& PTE_SYSCALL &&& PTE_COW ≠ 0)),
          Bool.false_eq_true, if_false, if_true] <;>
        refine ⟨?_, ?_⟩ <;>
        first
          | exact hp q
          | exact hc q
          | ((repeat' split) <;>
             first
               | exact hp q
               | exact hc q
               | exact cowInv_installPTE _ _ h.1)
  · intro s va err fa fm fu srcpn dstpn perm hm
    by_cases h : err &&& FEC_WR = 0 ∨ s.pt (PGNUM va) &&& PTE_COW = 0
    · simp [pgfault, if_pos h] at hm
    · cases fa <;> cases fm <;> cases fu <;>
        simp only [pgfault, if_neg h, Bool.false_eq_true, if_false, if_true,
          List.cons_append, List.nil_append, List.mem_cons, List.not_mem_nil,
          or_false] at hm
      all_goals simp at hm
      all_goals obtain ⟨-, -, rfl⟩ := hm
      all_goals exact ⟨by decide, by decide⟩
  · intro s va err fa fm fu hinv q
    by_cases h : err &&& FEC_WR = 0 ∨ s.pt (PGNUM va) &&& PTE_COW = 0
    · simp only [pgfault, if_pos h]
      exact hinv q
    · cases fa <;> cases fm <;> cases fu <;>
        simp only [pgfault, if_neg h, Bool.false_eq_true, if_false, if_true] <;>
        first
          | exact hinv q
          | ((repeat' split) <;>
             first
               | exact hinv q
               | exact cowInv_zero
               | exact cowInv_fresh _
               | exact cowInv_install_noCOW _ _ (by decide))

/-- Witness for C1: the theorem applied at concrete inputs — the all-writable
parent address space `dupStW` for the duppage parts, and the one-COW-page
memory `memCow` (write fault, error code FEC_WR) for the pgfault parts. -/
theorem cow_never_writable_witness :
    ((⟨true, 3, (PTE_U ||| PTE_P) ||| PTE_COW⟩ : MapCall).perm &&& PTE_COW ≠ 0 ∧
      (⟨true, 3, (PTE_U ||| PTE_P) ||| PTE_COW⟩ : MapCall).perm &&& PTE_W = 0)
    ∧ (cowInv ((duppage dupStW 3 false false).1.parentPT 3) ∧
       cowInv ((duppage dupStW 3 false false).1.childPT 3))
    ∧ ((PTE_W ||| PTE_U ||| PTE_P) &&& PTE_W ≠ 0 ∧
       (PTE_W ||| PTE_U ||| PTE_P) &&& PTE_COW = 0)
    ∧ cowInv ((pgfault memCow (7 * PGSIZE) FEC_WR false false false).st.pt 7) := by
  refine ⟨?_, ?_, ?_, ?_⟩
  · refine cow_never_writable.1 dupStW 3 false false (by decide) _ ?_
    decide
  · exact cow_never_writable.2.1 dupStW 3 false false
      (fun _ => (by decide : cowInv ((5 <<< 12) ||| (PTE_W ||| PTE_U ||| PTE_P))))
      (fun _ => (by decide : cowInv 0)) 3
  · refine cow_never_writable.2.2.1 memCow (7 * PGSIZE) FEC_WR false false false
      (PGNUM PFTEMP) (PGNUM (ROUNDDOWN (7 * PGSIZE) PGSIZE)) _ ?_
    decide
  · refine cow_never_writable.2.2.2 memCow (7 * PGSIZE) FEC_WR false false false ?_ 7
    intro r
    unfold memCow cowInv
    dsimp only
    split <;> decide

/-! ### Claim C2 -/

/-- The masked permission duppage starts from is below 2^12. -/
lemma perm_mask_lt (pte : Nat) : pte &&& PTE_SYSCALL < 4096 :=
  lt_of_le_of_lt (Nat.and_le_right) (by decide)

/-- The COW permission duppage computes is below 2^12. -/
lemma perm2_lt (p : Nat) (hp : p < 4096) :
    ((p ||| PTE_COW) &&& 0xFFFFFFFD) < 4096 := by
  refine lt_of_le_of_lt (Nat.and_le_left) ?_
  have h12 : (4096 : Nat) = 2 ^ 12 := by norm_num
  rw [h12] at hp ⊢
  exact Nat.bitwise_lt_two_pow hp (by norm_num [PTE_COW])

/-- Claim C2: for a page whose mapping is writable or already COW-marked,
duppage first installs the page into the child read-only and COW-marked and
only afterwards reinstalls the same mapping into the parent; the two installed
entries are identical, keep the frame, have PTE_W cleared and PTE_COW set.
For a page already read-only and not COW-marked, duppage issues a single map
into the child with the PTE_SYSCALL-masked permissions unchanged, leaving the
parent untouched. -/
theorem duppage_child_first (s : DupState) (pn : Nat) :
    ((s.parentPT pn &&& PTE_SYSCALL &&& PTE_W ≠ 0 ∨
      s.parentPT pn &&& PTE_SYSCALL &&& PTE_COW ≠ 0) →
      (duppage s pn false false).2.1 =
        [⟨true, pn, ((s.parentPT pn &&& PTE_SYSCALL) ||| PTE_COW) &&& 0xFFFFFFFD⟩,
         ⟨false, pn, ((s.parentPT pn &&& PTE_SYSCALL) ||| PTE_COW) &&& 0xFFFFFFFD⟩] ∧
      (duppage s pn false false).1.childPT pn =
        installPTE (s.parentPT pn)
          (((s.parentPT pn &&& PTE_SYSCALL) ||| PTE_COW) &&& 0xFFFFFFFD) ∧
      (duppage s pn false false).1.parentPT pn = (duppage s pn false false).1.childPT pn ∧
      frameOf ((duppage s pn false false).1.childPT pn) = frameOf (s.parentPT pn) ∧
      (duppage s pn false false).1.childPT pn &&& PTE_W = 0 ∧
      (duppage s pn false false).1.childPT pn &&& PTE_COW ≠ 0)
    ∧ ((s.parentPT pn &&& PTE_SYSCALL &&& PTE_W = 0 ∧
        s.parentPT pn &&& PTE_SYSCALL &&& PTE_COW = 0) →
      (duppage s pn false false).2.1 = [⟨true, pn, s.parentPT pn &&& PTE_SYSCALL⟩] ∧
      (duppage s pn false false).1.childPT pn =
        installPTE (s.parentPT pn) (s.parentPT pn &&& PTE_SYSCALL) ∧
      (duppage s pn false false).1.parentPT = s.parentPT ∧
      (duppage s pn false false).1.childPT pn &&& PTE_W = s.parentPT pn &&& PTE_W ∧
      (duppage s pn false false).1.childPT pn &&& PTE_COW = s.parentPT pn &&& PTE_COW ∧
      (duppage s pn false false).1.childPT pn &&& PTE_U = s.parentPT pn &&& PTE_U) := by
  constructor
  · intro h
    have e2 : (duppage s pn false false).1.childPT pn =
        installPTE (s.parentPT pn)
          (((s.parentPT pn &&& PTE_SYSCALL) ||| PTE_COW) &&& 0xFFFFFFFD) := by
      simp only [duppage]
      rw [if_pos h]
      simp
    have e3 : (duppage s pn false false).1.parentPT pn =
        installPTE (s.parentPT pn)
          (((s.parentPT pn &&& PTE_SYSCALL) ||| PTE_COW) &&& 0xFFFFFFFD) := by
      simp only [duppage]
      rw [if_pos h]
      simp
    have e1 : (duppage s pn false false).2.1 =
        [⟨true, pn, ((s.parentPT pn &&& PTE_SYSCALL) ||| PTE_COW) &&& 0xFFFFFFFD⟩,
         ⟨false, pn, ((s.parentPT pn &&& PTE_SYSCALL) ||| PTE_COW) &&& 0xFFFFFFFD⟩] := by
      simp only [duppage]
      rw [if_pos h]
      simp
    refine ⟨e1, e2, ?_, ?_, ?_, ?_⟩
    · rw [e3, e2]
    · rw [e2, frameOf_installPTE _ _ (perm2_lt _ (perm_mask_lt _))]
    · rw [e2]
      exact installPTE_land_W _ _ (perm2_land_W _)
    · rw [e2, installPTE_land_small _ _ PTE_COW (by norm_num [PTE_COW])]
      intro hz
      rcases lor_eq_zero_iff.mp hz with ⟨h1, -⟩
      exact perm2_land_COW _ h1
  · intro h
    have hn : ¬ (s.parentPT pn &&& PTE_SYSCALL &&& PTE_W ≠ 0 ∨
        s.parentPT pn &&& PTE_SYSCALL &&& PTE_COW ≠ 0) := by
      push_neg
      exact h
    have e2 : (duppage s pn false false).1.childPT pn =
        installPTE (s.parentPT pn) (s.parentPT pn &&& PTE_SYSCALL) := by
      simp only [duppage]
      rw [if_neg hn]
      simp
    have e1 : (duppage s pn false false).2.1 =
        [⟨true, pn, s.parentPT pn &&& PTE_SYSCALL⟩] := by
      simp only [duppage]
      rw [if_neg hn]
      simp
    have e3 : (duppage s pn false false).1.parentPT = s.parentPT := by
      simp only [duppage]
      rw [if_neg hn]
      simp
    have hW : s.parentPT pn &&& PTE_SYSCALL &&& PTE_W = s.parentPT pn &&& PTE_W := by
      rw [Nat.land_assoc, (by decide : PTE_SYSCALL &&& PTE_W = PTE_W)]
    have hC : s.parentPT pn &&& PTE_SYSCALL &&& PTE_COW = s.parentPT pn &&& PTE_COW := by
      rw [Nat.land_assoc, (by decide : PTE_SYSCALL &&& PTE_COW = PTE_COW)]
    have hU : s.parentPT pn &&& PTE_SYSCALL &&& PTE_U = s.parentPT pn &&& PTE_U := by
      rw [Nat.land_assoc, (by decide : PTE_SYSCALL &&& PTE_U = PTE_U)]
    refine ⟨e1, e2, e3, ?_, ?_, ?_⟩
    · rw [e2, installPTE_land_small _ _ PTE_W (by norm_num [PTE_W]), hW,
        (by decide : PTE_P &&& PTE_W = 0)]
      simp
    · rw [e2, installPTE_land_small _ _ PTE_COW (by norm_num [PTE_COW]), hC,
        (by decide : PTE_P &&& PTE_COW = 0)]
      simp
    · rw [e2, installPTE_land_small _ _ PTE_U (by norm_num [PTE_U]), hU,
        (by decide : PTE_P &&& PTE_U = 0)]
      simp

/-- Witness for C2: the theorem applied to the all-writable address space
`dupStW` (page 3) and the read-only address space `dupStRO` (page 5). -/
theorem duppage_child_first_witness :
    (duppage dupStW 3 false false).2.1 =
      [⟨true, 3, ((dupStW.parentPT 3 &&& PTE_SYSCALL) ||| PTE_COW) &&& 0xFFFFFFFD⟩,
       ⟨false, 3, ((dupStW.parentPT 3 &&& PTE_SYSCALL) ||| PTE_COW) &&& 0xFFFFFFFD⟩] ∧
    (duppage dupStRO 5 false false).2.1 = [⟨true, 5, dupStRO.parentPT 5 &&& PTE_SYSCALL⟩] :=
  ⟨((duppage_child_first dupStW 3).1 (by decide)).1,
   ((duppage_child_first dupStRO 5).2 (by decide)).1⟩

/-! ### State of pgfault after a successful copy -/

/-- After a valid COW write fault handled with no syscall failure, the final
page table maps the staging page to nothing, the faulted page to the freshly
allocated frame with write permission, and every other page as before. -/
lemma pgfault_post_pt (s : MemState) (va err : Nat)
    (h : ¬ (err &&& FEC_WR = 0 ∨ s.pt (PGNUM va) &&& PTE_COW = 0)) (q : Nat) :
    (pgfault s va err false false false).st.pt q =
      if q = PGNUM PFTEMP then 0
      else if q = PGNUM va then
        installPTE ((s.nextFrame <<< 12) ||| (PTE_W ||| PTE_U ||| PTE_P))
          (PTE_W ||| PTE_U ||| PTE_P)
      else s.pt q := by
  simp only [pgfault, if_neg h, Bool.false_eq_true, if_false, if_true]
  rw [PGNUM_ROUNDDOWN]
  by_cases h1 : q = PGNUM PFTEMP
  · simp [h1]
  · simp only [if_neg h1]

/-- The syscalls of a successful COW fault, in order: allocate the staging
page, copy the faulted page into it, remap the faulted page, unmap staging. -/
lemma pgfault_success_trace (s : MemState) (va err : Nat)
    (h : ¬ (err &&& FEC_WR = 0 ∨ s.pt (PGNUM va) &&& PTE_COW = 0)) :
    (pgfault s va err false false false).trace =
      [SysEv.alloc (PGNUM PFTEMP) (PTE_W ||| PTE_U ||| PTE_P),
       SysEv.copy (PGNUM PFTEMP) (PGNUM va),
       SysEv.map (PGNUM PFTEMP) (PGNUM va) (PTE_W ||| PTE_U ||| PTE_P),
       SysEv.unmap (PGNUM PFTEMP)] := by
  simp only [pgfault, if_neg h, Bool.false_eq_true, if_false, if_true]
  rw [PGNUM_ROUNDDOWN]
  simp

/-- A successful COW fault does not panic. -/
lemma pgfault_success_panicked (s : MemState) (va err : Nat)
    (h : ¬ (err &&& FEC_WR = 0 ∨ s.pt (PGNUM va) &&& PTE_COW = 0)) :
    (pgfault s va err false false false).panicked = false := by
  simp only [pgfault, if_neg h, Bool.false_eq_true, if_false, if_true]

/-- After a successful COW fault outside the staging page, the fresh frame
holds a copy of the faulted page as it was at fault time. -/
lemma pgfault_success_frames (s : MemState) (va err : Nat)
    (h : ¬ (err &&& FEC_WR = 0 ∨ s.pt (PGNUM va) &&& PTE_COW = 0))
    (hq : PGNUM va ≠ PGNUM PFTEMP)
    (hf : frameOf (s.pt (PGNUM va)) ≠ s.nextFrame) :
    (pgfault s va err false false false).st.frames s.nextFrame =
      s.frames (frameOf (s.pt (PGNUM va))) := by
  simp only [pgfault, if_neg h, Bool.false_eq_true, if_false, if_true]
  rw [PGNUM_ROUNDDOWN]
  have hWUP : (PTE_W ||| PTE_U ||| PTE_P) < 4096 := by decide
  simp only [if_neg hq, if_pos rfl, frameOf_shl_lor _ _ hWUP]
  simp [hf]

/-! ### Claim C4 -/

/-- Claim C4: a fault that is not a write to a currently COW-marked page is a
fatal protocol violation: pgfault panics with an empty syscall trace and the
memory unchanged — so no allocation, no mapping change and no reference-count
adjustment happens.  In particular, re-entering the handler at an address a
previous successful fault already remapped away from COW panics the same way,
leaving the original frame untouched. -/
theorem pgfault_rejects_non_cow_write :
    ∀ s va err fa fm fu,
      ((err &&& FEC_WR = 0 ∨ s.pt (PGNUM va) &&& PTE_COW = 0) →
        pgfault s va err fa fm fu = ⟨s, [], true⟩)
      ∧ (err &&& FEC_WR ≠ 0 → s.pt (PGNUM va) &&& PTE_COW ≠ 0 →
        ∀ err2 fa2 fm2 fu2,
          pgfault (pgfault s va err false false false).st va err2 fa2 fm2 fu2 =
            ⟨(pgfault s va err false false false).st, [], true⟩) := by
  intro s va err fa fm fu
  constructor
  · intro h
    simp only [pgfault, if_pos h]
  · intro h1 h2 err2 fa2 fm2 fu2
    have h : ¬ (err &&& FEC_WR = 0 ∨ s.pt (PGNUM va) &&& PTE_COW = 0) := by
      push_neg
      exact ⟨h1, h2⟩
    have hcow : (pgfault s va err false false false).st.pt (PGNUM va) &&& PTE_COW = 0 := by
      rw [pgfault_post_pt s va err h (PGNUM va)]
      by_cases hp : PGNUM va = PGNUM PFTEMP
      · rw [if_pos hp]
        decide
      · rw [if_neg hp, if_pos rfl,
          installPTE_land_small _ _ PTE_COW (by norm_num [PTE_COW])]
        decide
    generalize hgen : (pgfault s va err false false false).st = t at hcow ⊢
    simp only [pgfault, if_pos (Or.inr hcow)]

/-- Witness for C4: a read fault (error code 4) on the COW page of `memCow`
panics with nothing issued; after a successful write fault on that page, a
second write fault at the same address panics the same way. -/
theorem pgfault_rejects_non_cow_write_witness :
    pgfault memCow (7 * PGSIZE) 4 false false false = ⟨memCow, [], true⟩ ∧
    pgfault (pgfault memCow (7 * PGSIZE) FEC_WR false false false).st
        (7 * PGSIZE) FEC_WR false false false =
      ⟨(pgfault memCow (7 * PGSIZE) FEC_WR false false false).st, [], true⟩ :=
  ⟨(pgfault_rejects_non_cow_write memCow (7 * PGSIZE) 4 false false false).1
     (Or.inl (by decide)),
   (pgfault_rejects_non_cow_write memCow (7 * PGSIZE) FEC_WR false false false).2
     (by decide) (by decide) FEC_WR false false false⟩

/-! ### Claim C5 -/

/-- Counterexample for C5 as stated: when the COW-marked page under a write
fault is the staging page itself (the page holding PFTEMP), the handler
returns without panicking but the address ends up unmapped — there is no
private writable copy, and the contents at fault time are lost. -/
theorem pgfault_staging_overlap_cex :
    memCowAtPftemp.pt (PGNUM PFTEMP) &&& PTE_COW ≠ 0 ∧
    FEC_WR &&& FEC_WR ≠ 0 ∧
    (pgfault memCowAtPftemp PFTEMP FEC_WR false false false).panicked = false ∧
    (pgfault memCowAtPftemp PFTEMP FEC_WR false false false).st.pt (PGNUM PFTEMP) = 0 ∧
    ¬ (pgfault memCowAtPftemp PFTEMP FEC_WR false false false).st.pt (PGNUM PFTEMP)
        &&& PTE_W ≠ 0 := by
  refine ⟨by decide, by decide, by decide, by decide, ?_⟩
  intro hw
  exact hw (by decide)

/-- Claim C5 (amended: the faulting address must lie outside the staging page
PFTEMP, and the model assumes the allocator hands out a frame not backing the
faulted page, as free frames are mapped nowhere): on a write fault to a
COW-marked page, pgfault allocates a fresh zero frame at PFTEMP, copies the
faulted page into it, remaps the page-aligned faulting address to the new
frame with write permission, unmaps the staging page, and returns leaving a
private writable (non-COW, present) copy whose bytes equal the contents of
the faulted page at fault time. -/
theorem pgfault_cow_copy (s : MemState) (va err : Nat)
    (h1 : err &&& FEC_WR ≠ 0) (h2 : s.pt (PGNUM va) &&& PTE_COW ≠ 0)
    (hstage : PGNUM va ≠ PGNUM PFTEMP)
    (hfresh : frameOf (s.pt (PGNUM va)) ≠ s.nextFrame) :
    (pgfault s va err false false false).panicked = false ∧
    (pgfault s va err false false false).trace =
      [SysEv.alloc (PGNUM PFTEMP) (PTE_W ||| PTE_U ||| PTE_P),
       SysEv.copy (PGNUM PFTEMP) (PGNUM va),
       SysEv.map (PGNUM PFTEMP) (PGNUM va) (PTE_W ||| PTE_U ||| PTE_P),
       SysEv.unmap (PGNUM PFTEMP)] ∧
    frameOf ((pgfault s va err false false false).st.pt (PGNUM va)) = s.nextFrame ∧
    (pgfault s va err false false false).st.pt (PGNUM va) &&& PTE_W ≠ 0 ∧
    (pgfault s va err false false false).st.pt (PGNUM va) &&& PTE_P ≠ 0 ∧
    (pgfault s va err false false false).st.pt (PGNUM va) &&& PTE_COW = 0 ∧
    frameOf ((pgfault s va err false false false).st.pt (PGNUM va)) ≠
      frameOf (s.pt (PGNUM va)) ∧
    (pgfault s va err false false false).st.frames
        (frameOf ((pgfault s va err false false false).st.pt (PGNUM va))) =
      s.frames (frameOf (s.pt (PGNUM va))) ∧
    (pgfault s va err false false false).st.pt (PGNUM PFTEMP) = 0 := by
  have h : ¬ (err &&& FEC_WR = 0 ∨ s.pt (PGNUM va) &&& PTE_COW = 0) := by
    push_neg
    exact ⟨h1, h2⟩
  have hWUP : (PTE_W ||| PTE_U ||| PTE_P) < 4096 := by decide
  have e : (pgfault s va err false false false).st.pt (PGNUM va) =
      installPTE ((s.nextFrame <<< 12) ||| (PTE_W ||| PTE_U ||| PTE_P))
        (PTE_W ||| PTE_U ||| PTE_P) := by
    rw [pgfault_post_pt s va err h (PGNUM va), if_neg hstage, if_pos rfl]
  have eframe : frameOf ((pgfault s va err false false false).st.pt (PGNUM va)) =
      s.nextFrame := by
    rw [e, frameOf_installPTE _ _ hWUP, frameOf_shl_lor _ _ hWUP]
  refine ⟨pgfault_success_panicked s va err h, pgfault_success_trace s va err h,
    eframe, ?_, ?_, ?_, ?_, ?_, ?_⟩
  · rw [e, installPTE_land_small _ _ PTE_W (by norm_num [PTE_W])]
    decide
  · rw [e, installPTE_land_small _ _ PTE_P (by norm_num [PTE_P])]
    decide
  · rw [e, installPTE_land_small _ _ PTE_COW (by norm_num [PTE_COW])]
    decide
  · rw [eframe]
    exact fun hx => hfresh hx.symm
  · rw [eframe]
    exact pgfault_success_frames s va err h hstage hfresh
  · rw [pgfault_post_pt s va err h (PGNUM PFTEMP), if_pos rfl]

/-- Witness for C5 (amended): the write fault on page 7 of `memCow` yields a
writable private copy backed by the fresh frame 10. -/
theorem pgfault_cow_copy_witness :
    (pgfault memCow (7 * PGSIZE) FEC_WR false false false).panicked = false ∧
    frameOf ((pgfault memCow (7 * PGSIZE) FEC_WR false false false).st.pt
        (PGNUM (7 * PGSIZE))) = memCow.nextFrame :=
  ⟨(pgfault_cow_copy memCow (7 * PGSIZE) FEC_WR (by decide) (by decide)
      (by decide) (by decide)).1,
   (pgfault_cow_copy memCow (7 * PGSIZE) FEC_WR (by decide) (by decide)
      (by decide) (by decide)).2.2.1⟩

/-! ### Trace helper lemmas (kept abstract in the scanned page list) -/

lemma setStatus_notmem_abort_trace (dupRes : Nat → Int) (l : List Nat)
    (i envid : Nat) (b : Bool) :
    ForkEv.setStatus i b ∉
      (ForkEv.setHandler :: ForkEv.exofork ::
        List.map (fun pn => ForkEv.dup pn (dupRes pn)) l) ++
      [ForkEv.allocUX envid (UXSTACKTOP - PGSIZE) (PTE_W ||| PTE_U ||| PTE_P)] := by
  simp

lemma getLast_append_three {α : Type} (l1 : List α) (x y z : α) :
    (l1 ++ [x, y, z]).getLast? = some z := by
  rw [show l1 ++ [x, y, z] = (l1 ++ [x, y]) ++ [z] by simp, List.getLast?_concat]

lemma mem_append_three {α : Type} (l1 : List α) (x y z : α) :
    z ∈ l1 ++ [x, y, z] := by
  simp

lemma mem_append_head {α : Type} (l1 rest : List α) (x : α) :
    x ∈ l1 ++ (x :: rest) :=
  List.mem_append_right l1 (List.mem_cons_self x rest)

lemma dup_mem_trace (dupRes : Nat → Int) (l : List Nat) (rest : List ForkEv)
    (pn : Nat) (hpn : pn ∈ l) :
    ForkEv.dup pn (dupRes pn) ∈
      (ForkEv.setHandler :: ForkEv.exofork ::
        List.map (fun q => ForkEv.dup q (dupRes q)) l) ++ rest := by
  simp only [List.cons_append, List.mem_cons, List.mem_append, List.mem_map]
  exact Or.inr (Or.inr (Or.inl ⟨pn, hpn, rfl⟩))

/-- The trace of fork when the fault-stack allocation fails. -/
lemma fork_abort_trace (pd pt : Nat → Nat) (e : Int) (myid : Nat)
    (dupRes : Nat → Int) (a u st : Int) (he : 0 < e) (ha : a < 0) :
    (fork pd pt e myid dupRes a u st).trace =
      (ForkEv.setHandler :: ForkEv.exofork ::
        List.map (fun pn => ForkEv.dup pn (dupRes pn)) (forkDupPns pd pt)) ++
      [ForkEv.allocUX e.toNat (UXSTACKTOP - PGSIZE) (PTE_W ||| PTE_U ||| PTE_P)] := by
  have h1 : ¬ e < 0 := not_lt.mpr (le_of_lt he)
  have h2 : ¬ e = 0 := ne_of_gt he
  simp only [fork, if_neg h1, if_neg h2, if_pos ha]

/-- The trace of fork on the fully successful parent path. -/
lemma fork_success_trace (pd pt : Nat → Nat) (e : Int) (myid : Nat)
    (dupRes : Nat → Int) (a u st : Int)
    (he : 0 < e) (ha : 0 ≤ a) (hu : 0 ≤ u) (hs : 0 ≤ st) :
    (fork pd pt e myid dupRes a u st).trace =
      (ForkEv.setHandler :: ForkEv.exofork ::
        List.map (fun pn => ForkEv.dup pn (dupRes pn)) (forkDupPns pd pt)) ++
      [ForkEv.allocUX e.toNat (UXSTACKTOP - PGSIZE) (PTE_W ||| PTE_U ||| PTE_P),
       ForkEv.setUpcall e.toNat, ForkEv.setStatus e.toNat true] := by
  have h1 : ¬ e < 0 := not_lt.mpr (le_of_lt he)
  have h2 : ¬ e = 0 := ne_of_gt he
  simp only [fork, if_neg h1, if_neg h2, if_neg (not_lt.mpr ha),
    if_neg (not_lt.mpr hu), if_neg (not_lt.mpr hs)]

/-! ### Claim C3 -/

/-- Claim C3: if the allocation of the fault-handling stack page for the
child fails, fork panics: it never returns a value, the child is never
marked RUNNABLE (no set-status step appears in the trace), and the
would-be child is abandoned unfinished. -/
theorem fork_uxstack_alloc_failure_aborts (pd pt : Nat → Nat) (e : Int)
    (myid : Nat) (dupRes : Nat → Int) (a u st : Int)
    (he : 0 < e) (ha : a < 0) :
    (fork pd pt e myid dupRes a u st).outcome = .panicked ∧
    (∀ i b, ForkEv.setStatus i b ∉ (fork pd pt e myid dupRes a u st).trace) ∧
    (fork pd pt e myid dupRes a u st).thisenvIdx = none := by
  have h1 : ¬ e < 0 := not_lt.mpr (le_of_lt he)
  have h2 : ¬ e = 0 := ne_of_gt he
  refine ⟨?_, ?_, ?_⟩
  · simp only [fork, if_neg h1, if_neg h2, if_pos ha]
  · intro i b
    rw [fork_abort_trace pd pt e myid dupRes a u st he ha]
    exact setStatus_notmem_abort_trace dupRes (forkDupPns pd pt) i e.toNat b
  · simp only [fork, if_neg h1, if_neg h2, if_pos ha]

/-- Witness for C3: with a failing stack allocation (status -1), fork
panics and leaves no child reference. -/
theorem fork_uxstack_alloc_failure_aborts_witness :
    (fork (fun _ => 0) (fun _ => 0) 7 0 (fun _ => 0) (-1) 0 0).outcome =
      ForkRet.panicked ∧
    (fork (fun _ => 0) (fun _ => 0) 7 0 (fun _ => 0) (-1) 0 0).thisenvIdx = none :=
  ⟨(fork_uxstack_alloc_failure_aborts (fun _ => 0) (fun _ => 0) 7 0 (fun _ => 0)
      (-1) 0 0 (by decide) (by decide)).1,
   (fork_uxstack_alloc_failure_aborts (fun _ => 0) (fun _ => 0) 7 0 (fun _ => 0)
      (-1) 0 0 (by decide) (by decide)).2.2⟩

/-! ### Claim C8 -/

/-- Claim C8: a successful fork returns the child envid to the parent with
the set-status(RUNNABLE) step as the last action before returning, while on
the child side the same call returns zero after repairing thisenv to the
table slot of its own environment id. -/
theorem fork_returns (pd pt : Nat → Nat) (e : Int) (myid : Nat)
    (dupRes : Nat → Int) (a u st : Int) :
    (0 < e → 0 ≤ a → 0 ≤ u → 0 ≤ st →
      (fork pd pt e myid dupRes a u st).outcome = .ret e ∧
      (fork pd pt e myid dupRes a u st).trace.getLast? =
        some (.setStatus e.toNat true)) ∧
    ((fork pd pt 0 myid dupRes a u st).outcome = .ret 0 ∧
     (fork pd pt 0 myid dupRes a u st).thisenvIdx = some (ENVX myid) ∧
     ForkEv.fixThisenv (ENVX myid) ∈ (fork pd pt 0 myid dupRes a u st).trace) := by
  constructor
  · intro he ha hu hs
    have h1 : ¬ e < 0 := not_lt.mpr (le_of_lt he)
    have h2 : ¬ e = 0 := ne_of_gt he
    constructor
    · simp only [fork, if_neg h1, if_neg h2, if_neg (not_lt.mpr ha),
        if_neg (not_lt.mpr hu), if_neg (not_lt.mpr hs)]
      exact congrArg ForkRet.ret (Int.toNat_of_nonneg (le_of_lt he))
    · rw [fork_success_trace pd pt e myid dupRes a u st he ha hu hs,
        getLast_append_three]
  · simp only [fork, if_neg (by decide : ¬ (0 : Int) < 0), if_pos rfl]
    exact ⟨by trivial, by trivial, by simp⟩

/-- Witness for C8: with exofork answering 7 the call returns 7; with
exofork answering 0 the child stores ENVX of its own id 5000. -/
theorem fork_returns_witness :
    (fork (fun _ => 0) (fun _ => 0) 7 5000 (fun _ => 0) 0 0 0).outcome =
      ForkRet.ret 7 ∧
    (fork (fun _ => 0) (fun _ => 0) 0 5000 (fun _ => 0) 0 0 0).thisenvIdx =
      some (ENVX 5000) :=
  ⟨((fork_returns (fun _ => 0) (fun _ => 0) 7 5000 (fun _ => 0) 0 0 0).1
      (by decide) (by decide) (by decide) (by decide)).1,
   (fork_returns (fun _ => 0) (fun _ => 0) 7 5000 (fun _ => 0) 0 0 0).2.2.1⟩

/-! ### Claim C10 -/

/-- Claim C10: fork discards the status duppage returns.  Even when some
duppage call in the scan fails with a negative status, fork neither aborts
nor propagates the error: it finishes the scan (every scanned page has its
dup step in the trace with the failing status recorded), marks the child
RUNNABLE, returns the child envid, and its outcome does not depend on the
duppage statuses at all. -/
theorem fork_ignores_duppage_failures (pd pt : Nat → Nat) (e : Int)
    (myid : Nat) (dupRes dupRes2 : Nat → Int) (a u st : Int)
    (he : 0 < e) (ha : 0 ≤ a) (hu : 0 ≤ u) (hs : 0 ≤ st)
    (hfail : ∃ pn ∈ forkDupPns pd pt, dupRes pn < 0) :
    (fork pd pt e myid dupRes a u st).outcome = .ret e ∧
    ForkEv.setStatus e.toNat true ∈ (fork pd pt e myid dupRes a u st).trace ∧
    (∀ pn ∈ forkDupPns pd pt,
      ForkEv.dup pn (dupRes pn) ∈ (fork pd pt e myid dupRes a u st).trace) ∧
    (fork pd pt e myid dupRes a u st).outcome =
      (fork pd pt e myid dupRes2 a u st).outcome := by
  have h1 : ¬ e < 0 := not_lt.mpr (le_of_lt he)
  have h2 : ¬ e = 0 := ne_of_gt he
  have htr := fork_success_trace pd pt e myid dupRes a u st he ha hu hs
  refine ⟨?_, ?_, ?_, ?_⟩
  · simp only [fork, if_neg h1, if_neg h2, if_neg (not_lt.mpr ha),
      if_neg (not_lt.mpr hu), if_neg (not_lt.mpr hs)]
    exact congrArg ForkRet.ret (Int.toNat_of_nonneg (le_of_lt he))
  · rw [htr]
    exact mem_append_three _ _ _ _
  · intro pn hpn
    rw [htr]
    exact dup_mem_trace dupRes (forkDupPns pd pt) _ pn hpn
  · simp only [fork, if_neg h1, if_neg h2, if_neg (not_lt.mpr ha),
      if_neg (not_lt.mpr hu), if_neg (not_lt.mpr hs)]

/-- Witness for C10: every page present, every duppage call failing with -1,
yet fork returns envid 5 and marks the child RUNNABLE. -/
theorem fork_ignores_duppage_failures_witness :
    (fork (fun _ => 1) (fun _ => 1) 5 0 (fun _ => -1) 0 0 0).outcome =
      ForkRet.ret 5 ∧
    ForkEv.setStatus (5 : Int).toNat true ∈
      (fork (fun _ => 1) (fun _ => 1) 5 0 (fun _ => -1) 0 0 0).trace :=
  ⟨(fork_ignores_duppage_failures (fun _ => 1) (fun _ => 1) 5 0 (fun _ => -1)
      (fun _ => 0) 0 0 0 (by decide) (by decide) (by decide) (by decide)
      ⟨0, by rw [forkDupPns]
             exact List.mem_filter.mpr ⟨List.mem_range.mpr (by decide), by decide⟩,
       by decide⟩).1,
   (fork_ignores_duppage_failures (fun _ => 1) (fun _ => 1) 5 0 (fun _ => -1)
      (fun _ => 0) 0 0 0 (by decide) (by decide) (by decide) (by decide)
      ⟨0, by rw [forkDupPns]
             exact List.mem_filter.mpr ⟨List.mem_range.mpr (by decide), by decide⟩,
       by decide⟩).2.1⟩

/-! ### Claim C7 -/

/-- Claim C7: the fork scan duplicates exactly the pages below USTACKTOP
whose directory and table entries are both present; every such page lies
wholly below the fault-handling stack page at UXSTACKTOP - PGSIZE, so the
scan excludes that region; and for the child fault stack fork issues a fresh
page allocation at UXSTACKTOP - PGSIZE with a writable, non-COW permission. -/
theorem fork_scan_present_below_ustacktop (pd pt : Nat → Nat) (pn : Nat) :
    (pn ∈ forkDupPns pd pt ↔
      pn * PGSIZE < USTACKTOP ∧ pd (PDX (pn * PGSIZE)) &&& PTE_P ≠ 0 ∧
      pt (PGNUM (pn * PGSIZE)) &&& PTE_P ≠ 0) ∧
    (pn ∈ forkDupPns pd pt → pn * PGSIZE + PGSIZE ≤ UXSTACKTOP - PGSIZE) ∧
    (∀ e myid dupRes a u st, (0 : Int) < e → (0 : Int) ≤ a →
      ForkEv.allocUX e.toNat (UXSTACKTOP - PGSIZE) (PTE_W ||| PTE_U ||| PTE_P) ∈
        (fork pd pt e myid dupRes a u st).trace) ∧
    (PTE_W ||| PTE_U ||| PTE_P) &&& PTE_COW = 0 ∧
    (PTE_W ||| PTE_U ||| PTE_P) &&& PTE_W ≠ 0 := by
  have hdvd : PGSIZE ∣ USTACKTOP := by decide
  have hmem : pn ∈ forkDupPns pd pt ↔
      pn * PGSIZE < USTACKTOP ∧ pd (PDX (pn * PGSIZE)) &&& PTE_P ≠ 0 ∧
      pt (PGNUM (pn * PGSIZE)) &&& PTE_P ≠ 0 := by
    rw [forkDupPns, List.mem_filter, List.mem_range,
      Nat.lt_div_iff_mul_lt hdvd, Nat.mul_comm PGSIZE pn]
    simp [and_assoc]
  refine ⟨hmem, ?_, ?_, by decide, by decide⟩
  · intro hp
    have hlt : pn * PGSIZE < USTACKTOP := (hmem.mp hp).1
    have c1 : USTACKTOP = 977918 * PGSIZE := by decide
    have c2 : UXSTACKTOP - PGSIZE = 977919 * PGSIZE := by decide
    have c3 : PGSIZE = 4096 := rfl
    rw [c1, c3] at hlt
    rw [c2, c3]
    omega
  · intro e myid dupRes a u st he ha
    have h1 : ¬ e < 0 := not_lt.mpr (le_of_lt he)
    have h2 : ¬ e = 0 := ne_of_gt he
    simp only [fork, if_neg h1, if_neg h2, if_neg (not_lt.mpr ha)]
    split
    · exact mem_append_head _ _ _
    · split
      · exact mem_append_head _ _ _
      · exact mem_append_head _ _ _

/-- Witness for C7: page 0 is scanned in the everything-present address
space, its page lies below the fault stack, and fork allocates the fault
stack page for the child. -/
theorem fork_scan_present_below_ustacktop_witness :
    0 * PGSIZE + PGSIZE ≤ UXSTACKTOP - PGSIZE ∧
    ForkEv.allocUX (3 : Int).toNat (UXSTACKTOP - PGSIZE)
        (PTE_W ||| PTE_U ||| PTE_P) ∈
      (fork (fun _ => 1) (fun _ => 1) 3 0 (fun _ => 0) 0 0 0).trace :=
  ⟨(fork_scan_present_below_ustacktop (fun _ => 1) (fun _ => 1) 0).2.1
     (by rw [forkDupPns]
         exact List.mem_filter.mpr ⟨List.mem_range.mpr (by decide), by decide⟩),
   (fork_scan_present_below_ustacktop (fun _ => 1) (fun _ => 1) 0).2.2.1
     3 0 (fun _ => 0) 0 0 0 (by decide) (by decide)⟩

/-! ### The sched_yield scan against the round-robin policy -/

/-- The do-while loop, probing a window of n + 1 indexes that starts at
`cur` and ends just before wrapping back to `begin`, agrees with finding the
first RUNNABLE entry along the probed index sequence: the hypotheses say the
exit test fires for the first time after exactly n + 1 probes. -/
lemma scanGo_eq_find (statuses : Nat → EnvStatus) (oob : EnvStatus)
    (begin : Nat) :
    ∀ n cur fuel, cur < NENV → (cur + (n + 1)) % NENV = begin →
      (∀ m, 1 ≤ m → m < n + 1 → (cur + m) % NENV ≠ begin) → n + 1 ≤ fuel →
      scanGo statuses oob begin cur fuel =
        match ((List.range (n + 1)).map fun k => (cur + k) % NENV).find?
            (fun i => decide (statuses i = .ENV_RUNNABLE)) with
        | some i => ScanRes.found i
        | none => ScanRes.exited := by
  intro n
  induction n with
  | zero =>
    intro cur fuel hcur hexit _hmin hfuel
    obtain ⟨f, rfl⟩ : ∃ f, fuel = f + 1 := ⟨fuel - 1, by omega⟩
    show (if envRead statuses oob cur = .ENV_RUNNABLE then ScanRes.found cur
      else if (cur + 1) % NENV = begin then ScanRes.exited
      else scanGo statuses oob begin ((cur + 1) % NENV) f) = _
    rw [envRead, if_pos hcur]
    have hhead : (cur + 0) % NENV = cur := by
      rw [Nat.add_zero, Nat.mod_eq_of_lt hcur]
    have hlist : ((List.range 1).map fun k => (cur + k) % NENV) = [cur] := by
      rw [show List.range 1 = [0] from rfl]
      rw [List.map_cons, List.map_nil, hhead]
    rw [hlist]
    by_cases hr : statuses cur = .ENV_RUNNABLE
    · rw [if_pos hr, List.find?_cons, (by simp [hr] :
        decide (statuses cur = EnvStatus.ENV_RUNNABLE) = true)]
    · rw [if_neg hr, if_pos hexit, List.find?_cons, (by simp [hr] :
        decide (statuses cur = EnvStatus.ENV_RUNNABLE) = false)]
      rfl
  | succ n ih =>
    intro cur fuel hcur hexit hmin hfuel
    obtain ⟨f, rfl⟩ : ∃ f, fuel = f + 1 := ⟨fuel - 1, by omega⟩
    show (if envRead statuses oob cur = .ENV_RUNNABLE then ScanRes.found cur
      else if (cur + 1) % NENV = begin then ScanRes.exited
      else scanGo statuses oob begin ((cur + 1) % NENV) f) = _
    rw [envRead, if_pos hcur]
    have hhead : (cur + 0) % NENV = cur := by
      rw [Nat.add_zero, Nat.mod_eq_of_lt hcur]
    have hmaps : ((List.range (n + 1 + 1)).map fun k => (cur + k) % NENV) =
        ((cur + 0) % NENV) ::
          ((List.range (n + 1)).map fun k => ((cur + 1) % NENV + k) % NENV) := by
      rw [List.range_succ_eq_map, List.map_cons, List.map_map]
      congr 1
      apply List.map_congr_left
      intro k _
      show (cur + (k + 1)) % NENV = ((cur + 1) % NENV + k) % NENV
      rw [Nat.mod_add_mod]
      congr 1
      omega
    rw [hmaps, hhead]
    by_cases hr : statuses cur = .ENV_RUNNABLE
    · rw [if_pos hr, List.find?_cons, (by simp [hr] :
        decide (statuses cur = EnvStatus.ENV_RUNNABLE) = true)]
    · rw [if_neg hr]
      have hne1 : (cur + 1) % NENV ≠ begin := hmin 1 (by omega) (by omega)
      rw [if_neg hne1]
      have hnextlt : (cur + 1) % NENV < NENV :=
        Nat.mod_lt _ (by decide : 0 < NENV)
      have hexit2 : ((cur + 1) % NENV + (n + 1)) % NENV = begin := by
        rw [Nat.mod_add_mod]
        have harith : cur + 1 + (n + 1) = cur + (n + 1 + 1) := by omega
        rw [harith]
        exact hexit
      have hmin2 : ∀ m, 1 ≤ m → m < n + 1 →
          ((cur + 1) % NENV + m) % NENV ≠ begin := by
        intro m h1 h2
        rw [Nat.mod_add_mod]
        have harith : cur + 1 + m = cur + (m + 1) := by omega
        rw [harith]
        exact hmin (m + 1) (by omega) (by omega)
      rw [ih ((cur + 1) % NENV) f hnextlt hexit2 hmin2 (by omega),
        List.find?_cons, (by simp [hr] :
          decide (statuses cur = EnvStatus.ENV_RUNNABLE) = false)]

/-- The full do-while scan starting at a valid index b probes each table
index once, in circular order from b. -/
lemma sched_core (statuses : Nat → EnvStatus) (oob : EnvStatus) (b : Nat)
    (hb : b < NENV) :
    scanGo statuses oob b b (NENV + 1) =
      match ((List.range NENV).map fun k => (b + k) % NENV).find?
          (fun i => decide (statuses i = .ENV_RUNNABLE)) with
      | some i => ScanRes.found i
      | none => ScanRes.exited := by
  have hNB : NENV - 1 + 1 = NENV := by decide
  have hexit : (b + (NENV - 1 + 1)) % NENV = b := by
    rw [hNB, Nat.add_mod_right, Nat.mod_eq_of_lt hb]
  have hmin : ∀ m, 1 ≤ m → m < NENV - 1 + 1 → (b + m) % NENV ≠ b := by
    intro m h1 h2 heq
    rw [hNB] at h2
    simp only [NENV] at heq hb h2
    omega
  have h := scanGo_eq_find statuses oob b (NENV - 1) b (NENV + 1) hb hexit hmin
    (by simp only [NENV]; omega)
  rw [hNB] at h
  exact h

set_option maxRecDepth 10000 in
/-- The round-robin policy never answers with a dispatch of an entry that is
not RUNNABLE. -/
lemma sched_spec_dispatch_runnable (statuses : Nat → EnvStatus)
    (curIdx : Option Nat) (j : Nat)
    (h : sched_spec statuses curIdx = .dispatch j) :
    statuses j = .ENV_RUNNABLE := by
  simp only [sched_spec] at h
  split at h
  · rename_i i heq
    cases h
    have hp := List.find?_some heq
    simp only [decide_eq_true_eq] at hp
    exact hp
  · split at h
    · split at h <;> simp at h
    · simp at h

/-! ### Claim C6 -/

set_option maxRecDepth 10000 in
/-- Counterexample for C6 as stated: when the environment last run on this
processor occupies the final table slot (index NENV - 1), the start index
begin = ENVX + 1 = NENV is never reduced modulo NENV, the exit test
(cur + 1) % NENV = begin can never fire, and with no RUNNABLE entry and the
current environment not RUNNING the do-while loop never exits — the code
diverges where the claimed policy halts the processor. -/
theorem sched_yield_last_slot_diverges :
    sched_yield (fun _ => .ENV_FREE) .ENV_FREE (some (NENV - 1)) =
      SchedResult.diverge ∧
    sched_spec (fun _ => .ENV_FREE) (some (NENV - 1)) = SchedResult.halt ∧
    SchedResult.diverge ≠ SchedResult.halt := by
  exact ⟨by decide, by decide, by decide⟩

/-- Claim C6 (amended: provided the environment last run on this processor
does not occupy the final table slot, so that the start index ENVX + 1 is
still inside the table): sched_yield scans the table exactly once in
circular order starting just after the last-run index, dispatches the first
RUNNABLE entry found, redispatches the current environment if none is found
and it is still RUNNING, and otherwise halts — exactly the round-robin
policy `sched_spec`; and any environment it dispatches from the scan has
status RUNNABLE, so an environment RUNNING on another processor is never
dispatched. -/
theorem sched_yield_round_robin (statuses : Nat → EnvStatus) (oob : EnvStatus)
    (curIdx : Option Nat)
    (hvalid : ∀ i, curIdx = some i → i + 1 < NENV) :
    sched_yield statuses oob curIdx = sched_spec statuses curIdx ∧
    (∀ j, sched_yield statuses oob curIdx = .dispatch j →
      statuses j = .ENV_RUNNABLE) := by
  have heq : sched_yield statuses oob curIdx = sched_spec statuses curIdx := by
    cases curIdx with
    | none =>
      simp only [sched_yield, sched_spec, beginOf]
      rw [sched_core statuses oob 0 (by decide)]
      cases hf : ((List.range NENV).map fun k => (0 + k) % NENV).find?
          (fun i => decide (statuses i = .ENV_RUNNABLE)) <;> rfl
    | some i =>
      have hv : i + 1 < NENV := hvalid i rfl
      simp only [sched_yield, sched_spec, beginOf]
      rw [sched_core statuses oob (i + 1) hv]
      simp only [Nat.mod_eq_of_lt hv]
      cases hf : ((List.range NENV).map fun k => (i + 1 + k) % NENV).find?
          (fun j => decide (statuses j = .ENV_RUNNABLE)) <;> rfl
  refine ⟨heq, ?_⟩
  intro j hj
  rw [heq] at hj
  exact sched_spec_dispatch_runnable statuses curIdx j hj

/-- Witness for C6 (amended): with the last-run environment in slot 2 and
slot 5 the only RUNNABLE entry, the code and the policy agree. -/
theorem sched_yield_round_robin_witness :
    sched_yield (fun i => if i = 5 then .ENV_RUNNABLE else .ENV_FREE)
        .ENV_FREE (some 2) =
      sched_spec (fun i => if i = 5 then .ENV_RUNNABLE else .ENV_FREE)
        (some 2) :=
  (sched_yield_round_robin (fun i => if i = 5 then .ENV_RUNNABLE else .ENV_FREE)
    .ENV_FREE (some 2) (fun i h => by cases h; decide)).1

/-! ### Claim C9 -/

set_option maxRecDepth 10000 in
/-- Claim C9 fails on the code: when the environment last run on this
processor occupies the final table slot NENV - 1, the scan start index is
ENVX + 1 = NENV with no modulo reduction, and the very first probe of the
do-while loop reads envs[NENV] — one entry past the table, not an index
strictly below NENV. -/
theorem sched_yield_first_probe_past_table :
    beginOf (some (NENV - 1)) = NENV ∧
    (sched_yield_probes (fun _ => .ENV_FREE) .ENV_FREE (some (NENV - 1))).head? =
      some NENV ∧
    ¬ NENV < NENV := by
  exact ⟨by decide, rfl, by decide⟩

end Jos
